import Mathlib

/-!
Verification development for the Raspberry Pi photo booth program
(single source file camera.py). The definitions below shallowly embed the
session state machine of the program: overlay creation and removal, the
debounced button polling, the per-session screen and sound sequence, and
the post-session distribution of captured files to the configured copy
destinations. Effects are modelled as an explicit event trace; wall-clock
time is threaded through as a rational clock that the timed sleeps advance.
-/

namespace PhotoBooth

/-- Sound clip paths from the top of camera.py (lines 108 to 121). -/
def SOUND_COUNTDOWN_0 : String :=
  "./assets/sounds/vous-allez-me-montrer-ce-que-vous-avez-un-peu-dans-le-froc.mp3"

def SOUND_COUNTDOWN_1 : String := "./assets/sounds/deshabillezvous.mp3"

def SOUND_COUNTDOWN_2 : String := "./assets/sounds/allez-y-mollo-avec-la-joie.mp3"

def SOUND_COUNTDOWN_3 : String :=
  "./assets/sounds/mais-allez-y-magnez-vous-le-fion-espece-de-grosse-dinde.mp3"

def SOUND_CAMERA : String := "./assets/sounds/camera.mp3"

def SOUND_DONE_0 : String := "./assets/sounds/allez_boire_un_coup.mp3"

def SOUND_DONE_1 : String := "./assets/sounds/considerer_que_je_suis_officiellement_cul_nu.mp3"

def SOUND_DONE_2 : String := "./assets/sounds/deux_trous_du_cul_soient_plus_efficaces_qu_un_seul.mp3"

def SOUND_DONE_3 : String := "./assets/sounds/lair_idiote.mp3"

def SOUND_DONE_4 : String := "./assets/sounds/pour_savoir_si_il_va_y_avoir_du_vent.mp3"

def SOUND_DONE_5 : String := "./assets/sounds/sourire_comme_des_glands.mp3"

def SOUND_DONE_6 : String := "./assets/sounds/vous-vous-devriez-arreter-de-sourire.mp3"

/-- Intro screen image, REAL_PATH plus /assets/Bienvenue.png (camera.py
line 328). REAL_PATH, the directory holding camera.py, is modelled as the
current directory; its value is irrelevant to every property below. -/
def intro_image : String := "./assets/Bienvenue.png"

/-- Finished screen image (camera.py lines 287 and 397). -/
def finished_image : String := "./assets/all_done.png"

/-- Get-ready screen image (camera.py line 258). -/
def get_ready_image : String := "./assets/souriez.png"

/-- Countdown tick image for a given counter value (camera.py line 268). -/
def wait_image (counter : Nat) : String :=
  "./assets/wait-" ++ toString counter ++ ".png"

/-- Observable effects of the program, in trace order. Times are the value
of the implicit wall clock when the effect happens; the clock advances at
each sleep. An added event records the overlay id handed out by the camera,
the image shown and the render layer. -/
inductive Event where
  | added (id : Nat) (image : String) (layer : Nat) (time : ℚ)
  | removed (id : Nat) (time : ℚ)
  | sound (file : String) (time : ℚ)
  | captured (file : String) (time : ℚ)
  | copied (src : String) (dest : String) (time : ℚ)
deriving DecidableEq, Repr

/-- Result of one overlay_image call: the events it emitted, the handle it
returned (-1 means no live overlay), the next fresh overlay id, and the
clock after the call returns. -/
structure OverlayResult where
  events : List Event
  ret : Int
  nextId : Nat
  clock : ℚ
deriving Repr

/-- Embedding of overlay_image (camera.py lines 196 to 247), restricted to
its effect behaviour: add an overlay on the given layer; when the duration
is positive, sleep for the duration, remove the overlay again and return
-1; otherwise return the live overlay id for a later remove_overlay call.
Fresh ids stand in for the opaque overlay objects of the camera library. -/
def overlay_image (nextId : Nat) (image_path : String) (duration : ℚ)
    (layer : Nat) (clock : ℚ) : OverlayResult :=
  if duration > 0 then
    { events := [Event.added nextId image_path layer clock,
                 Event.removed nextId (clock + duration)],
      ret := -1, nextId := nextId + 1, clock := clock + duration }
  else
    { events := [Event.added nextId image_path layer clock],
      ret := Int.ofNat nextId, nextId := nextId + 1, clock := clock }

/-- Embedding of remove_overlay (camera.py lines 188 to 193): remove the
overlay unless the handle is -1, in which case nothing happens. -/
def remove_overlay (overlay_id : Int) (clock : ℚ) : List Event :=
  if overlay_id ≠ -1 then [Event.removed overlay_id.toNat clock] else []

/-- Geometry of the single renderer call made by overlay_image
(camera.py lines 222 to 239): the padded canvas size, where the source
image is pasted, and the size argument passed to the renderer. Inputs are
the image dimensions after the optional resize step. -/
structure RenderCall where
  canvas_w : Nat
  canvas_h : Nat
  paste_x : Nat
  paste_y : Nat
  size_w : Nat
  size_h : Nat
deriving DecidableEq, Repr

/-- Embedding of the pad-and-render part of overlay_image: the canvas is
built with dimensions rounded up to multiples of 32 and 16, the image is
pasted at (0, 0), and the renderer receives the unpadded size. -/
def overlay_render (w h : Nat) : RenderCall :=
  { canvas_w := ((w + 31) / 32) * 32
    canvas_h := ((h + 15) / 16) * 16
    paste_x := 0
    paste_y := 0
    size_w := w
    size_h := h }

/-- Embedding of the countdown cue dispatch in main (camera.py lines 380
to 387): the clip chosen by taken_photo mod 10, none when the remainder is
4 or more. -/
def countdown_sound (taken_photo : Nat) : Option String :=
  if taken_photo % 10 == 0 then some SOUND_COUNTDOWN_0
  else if taken_photo % 10 == 1 then some SOUND_COUNTDOWN_1
  else if taken_photo % 10 == 2 then some SOUND_COUNTDOWN_2
  else if taken_photo % 10 == 3 then some SOUND_COUNTDOWN_3
  else none

/-- Embedding of done_sound (camera.py lines 290 to 304): the clip chosen
by photo_number mod 7. The final none branch is unreachable because the
remainder is always below 7. -/
def done_sound (photo_number : Nat) : Option String :=
  if photo_number % 7 == 0 then some SOUND_DONE_0
  else if photo_number % 7 == 1 then some SOUND_DONE_1
  else if photo_number % 7 == 2 then some SOUND_DONE_2
  else if photo_number % 7 == 3 then some SOUND_DONE_3
  else if photo_number % 7 == 4 then some SOUND_DONE_4
  else if photo_number % 7 == 5 then some SOUND_DONE_5
  else if photo_number % 7 == 6 then some SOUND_DONE_6
  else none

/-- The four countdown cue clips in index order, as a lookup table. -/
def countdown_cue_table : List String :=
  [SOUND_COUNTDOWN_0, SOUND_COUNTDOWN_1, SOUND_COUNTDOWN_2, SOUND_COUNTDOWN_3]

/-- The seven done cue clips in index order, as a lookup table. -/
def done_cue_table : List String :=
  [SOUND_DONE_0, SOUND_DONE_1, SOUND_DONE_2, SOUND_DONE_3,
   SOUND_DONE_4, SOUND_DONE_5, SOUND_DONE_6]

/-- Trace of an optional play_sound call: one sound event when a clip was
selected, nothing otherwise. -/
def sound_events (clip : Option String) (clock : ℚ) : List Event :=
  match clip with
  | some f => [Event.sound f clock]
  | none => []

/-- Result of the countdown display loop in taking_photo: emitted events,
next fresh overlay id, clock after the loop. -/
structure ScreensResult where
  events : List Event
  nextId : Nat
  clock : ℚ
deriving Repr

/-- Embedding of the countdown loop of taking_photo (camera.py lines 267
to 269): for counter values n down to 1, show the matching wait image for
one second each. -/
def countdown_screens (nextId : Nat) (clock : ℚ) : Nat → ScreensResult
  | 0 => ⟨[], nextId, clock⟩
  | n + 1 =>
    let r := overlay_image nextId (wait_image (n + 1)) 1 3 clock
    let rest := countdown_screens r.nextId r.clock n
    ⟨r.events ++ rest.events, rest.nextId, rest.clock⟩

/-- Result of the distribution loop: emitted copy events, the (src, dest)
pairs actually passed to the copy call in order, and whether every copy
succeeded (false means an exception escaped the loop). -/
structure CopyResult where
  events : List Event
  attempted : List (String × String)
  ok : Bool
deriving Repr

/-- Inner loop of the distribution block: copy each source file to one
destination. The copy call has no exception handler in camera.py, so the
first failing copy aborts everything after it. -/
def copy_to_dest (copyOk : String → String → Bool) (dest : String) :
    List String → ℚ → CopyResult
  | [], _ => ⟨[], [], true⟩
  | src :: rest, clock =>
    if copyOk src dest then
      let r := copy_to_dest copyOk dest rest clock
      ⟨Event.copied src dest clock :: r.events, (src, dest) :: r.attempted, r.ok⟩
    else ⟨[], [(src, dest)], false⟩

/-- Embedding of the distribution block of main (camera.py lines 404 to
408): for each configured destination folder, copy every captured file
into it. copyOk is the oracle saying whether a given copy call succeeds;
a failure raises out of the loop uncaught. -/
def distribute (copyOk : String → String → Bool) (dests srcs : List String)
    (clock : ℚ) : CopyResult :=
  match dests with
  | [] => ⟨[], [], true⟩
  | dest :: rest =>
    let r := copy_to_dest copyOk dest srcs clock
    if r.ok then
      let r2 := distribute copyOk rest srcs clock
      ⟨r.events ++ r2.events, r.attempted ++ r2.attempted, r2.ok⟩
    else r

/-- All (src, dest) pairs of the distribution block in iteration order:
destination-major, matching the loop nesting of camera.py lines 405/406. -/
def all_pairs (dests srcs : List String) : List (String × String) :=
  dests.flatMap (fun dest => srcs.map (fun src => (src, dest)))

/-- Modelled from the amended reading of the distribution contract: walk
the (src, dest) pairs in order and stop at the first failing one. Used to
compare the code against the corrected claim wording. -/
def attempted_until_failure (copyOk : String → String → Bool) :
    List (String × String) → List (String × String) × Bool
  | [] => ([], true)
  | p :: rest =>
    if copyOk p.1 p.2 then
      let r := attempted_until_failure copyOk rest
      (p :: r.1, r.2)
    else ([p], false)

/-- Mutable state of main that survives across loop iterations: the live
intro overlay handle, the taken_photo counter, the next fresh overlay id
and the wall clock. -/
structure SessState where
  overlay : Int
  taken_photo : Nat
  nextId : Nat
  clock : ℚ
deriving Repr

/-- Configuration values read from camera-config.yaml that the main loop
consults, plus the copy-success oracle for the filesystem. -/
structure Config where
  countdown : Nat
  prep_delay : ℚ
  debounce : ℚ
  testmode : Bool
  copy_images_to : List String
  copyOk : String → String → Bool

/-- Result of one complete session body (the code from camera.py line 366
to line 408): emitted events, the state afterwards, and whether the
distribution block completed without an uncaught copy failure. -/
structure SessionResult where
  events : List Event
  state : SessState
  ok : Bool

/-- Embedding of one session of main (camera.py lines 366 to 408): prep
screen, removal of the intro overlay, countdown cue, countdown screens,
shutter sound and capture, playback of the captured photo for two seconds,
done cue, finished overlay over a fresh intro overlay, a two second sleep,
removal of the finished overlay, then distribution of the captured file. -/
def run_session (cfg : Config) (filename : String) (st : SessState) :
    SessionResult :=
  let prep := overlay_image st.nextId get_ready_image cfg.prep_delay 4 st.clock
  let removeIntro := remove_overlay st.overlay prep.clock
  let cueEvs := sound_events (countdown_sound st.taken_photo) prep.clock
  let cd := countdown_screens prep.nextId prep.clock cfg.countdown
  let shotEvs := [Event.sound SOUND_CAMERA cd.clock, Event.captured filename cd.clock]
  let playback := overlay_image cd.nextId filename 2 3 cd.clock
  let doneEvs := sound_events (done_sound st.taken_photo) playback.clock
  let fin := overlay_image playback.nextId finished_image 0 4 playback.clock
  let intro := overlay_image fin.nextId intro_image 0 3 fin.clock
  let afterSleep := intro.clock + 2
  let removeFin := remove_overlay fin.ret afterSleep
  let dist := distribute cfg.copyOk cfg.copy_images_to [filename] afterSleep
  { events := prep.events ++ removeIntro ++ cueEvs ++ cd.events ++ shotEvs ++
      playback.events ++ doneEvs ++ fin.events ++ intro.events ++ removeFin ++
      dist.events
    state := { overlay := intro.ret, taken_photo := st.taken_photo,
               nextId := intro.nextId, clock := afterSleep }
    ok := dist.ok }

/-- One polling iteration worth of external input: whether a falling edge
was latched on each pin since the last check, and the level each pin reads
after the debounce sleep (0 is active). -/
structure IterInput where
  photoEdge : Bool
  photoLevel : Nat
  exitEdge : Bool
  exitLevel : Nat
deriving DecidableEq, Repr

/-- Embedding of one button check of the polling loop (camera.py lines 343
to 351): when an edge was latched, sleep for the debounce interval and
confirm the press only if the re-read level is 0. Returns the confirmation
and the clock after the optional debounce sleep. -/
def poll_button (debounce : ℚ) (edge : Bool) (level : Nat) (clock : ℚ) :
    Bool × ℚ :=
  if edge then (level == 0, clock + debounce) else (false, clock)

/-- How the main loop ended: exit button confirmed (the return at line
354), test-mode break (line 412), or an uncaught copy failure escaping the
distribution block. -/
inductive ExitReason where
  | exitButton
  | testBreak
  | copyFailure
deriving DecidableEq, Repr

/-- Result of running the main loop on a finite input script: emitted
events, why the loop ended (none when the script ran out first), the
number of sessions entered, and the final state. -/
structure RunResult where
  events : List Event
  reason : Option ExitReason
  sessions : Nat
  final : SessState
deriving Repr

/-- Embedding of the polling loop of main (camera.py lines 339 to 418),
driven by a finite script of per-iteration inputs. Each iteration checks
the photo button, then the exit button, returns when the exit press is
confirmed, honours the test-autopress flag, idles for a tenth of a second
when no press is confirmed, and otherwise runs one session, breaking after
it in test mode and incrementing taken_photo otherwise. -/
def main_loop (cfg : Config) (fname : Nat → String) :
    List IterInput → SessState → Nat → RunResult
  | [], st, sessions => { events := [], reason := none, sessions := sessions, final := st }
  | inp :: rest, st, sessions =>
    let pPhoto := poll_button cfg.debounce inp.photoEdge inp.photoLevel st.clock
    let pExit := poll_button cfg.debounce inp.exitEdge inp.exitLevel pPhoto.2
    if pExit.1 then
      { events := [], reason := some ExitReason.exitButton, sessions := sessions,
        final := { st with clock := pExit.2 } }
    else if pPhoto.1 || cfg.testmode then
      let sr := run_session cfg (fname sessions) { st with clock := pExit.2 }
      if sr.ok then
        if cfg.testmode then
          { events := sr.events, reason := some ExitReason.testBreak,
            sessions := sessions + 1, final := sr.state }
        else
          let r := main_loop cfg fname rest
            { overlay := sr.state.overlay,
              taken_photo := sr.state.taken_photo + 1,
              nextId := sr.state.nextId,
              clock := sr.state.clock } (sessions + 1)
          { events := sr.events ++ r.events, reason := r.reason,
            sessions := r.sessions, final := r.final }
      else
        { events := sr.events, reason := some ExitReason.copyFailure,
          sessions := sessions + 1, final := sr.state }
    else
      main_loop cfg fname rest { st with clock := pExit.2 + 1/10 } sessions

/-- State right before the polling loop starts (camera.py lines 319 and
329): taken_photo is 3 and the intro overlay was just shown with no
duration, so its handle is live. -/
def init_state : SessState :=
  { overlay := (overlay_image 0 intro_image 0 3 0).ret, taken_photo := 3,
    nextId := (overlay_image 0 intro_image 0 3 0).nextId, clock := 0 }

/-- Embedding of main up to and including the polling loop (camera.py
lines 306 to 418): the taken_photo counter starts at 3, the intro overlay
is shown with no duration before the loop, and the loop then runs on the
given input script. fname gives the base filename generated for each
session in order. -/
def run (cfg : Config) (fname : Nat → String) (script : List IterInput) :
    RunResult :=
  let r := main_loop cfg fname script init_state 0
  { events := (overlay_image 0 intro_image 0 3 0).events ++ r.events,
    reason := r.reason, sessions := r.sessions, final := r.final }

/-- Embedding of the unused helper playback_screen (camera.py lines 278 to
288). It would show the captured photo for two seconds and the finished
image for three, but main never calls it; the loop body inlines its own
variant with a two second sleep instead. Kept for comparison with the
specification text. -/
def playback_screen (nextId : Nat) (filename : String) (clock : ℚ) :
    OverlayResult :=
  let pb := overlay_image nextId filename 2 3 clock
  overlay_image pb.nextId finished_image 3 3 pb.clock

/-- Overlay ids of all added events of a trace, in order. -/
def addedIds : List Event → List Nat
  | [] => []
  | Event.added i _ _ _ :: rest => i :: addedIds rest
  | _ :: rest => addedIds rest

/-- Overlay ids of all removed events of a trace, in order. -/
def removedIds : List Event → List Nat
  | [] => []
  | Event.removed i _ :: rest => i :: removedIds rest
  | _ :: rest => removedIds rest

/-- Overlay ids that were added but never removed within a trace. -/
def unremoved (evs : List Event) : List Nat :=
  (addedIds evs).filter (fun i => !(removedIds evs).contains i)

/-- Files recorded by capture events of a trace, in order. -/
def captured_files : List Event → List String
  | [] => []
  | Event.captured f _ :: rest => f :: captured_files rest
  | _ :: rest => captured_files rest

/-- The (src, dest) pairs of successful copy events of a trace, in order. -/
def copied_pairs : List Event → List (String × String)
  | [] => []
  | Event.copied s d _ :: rest => (s, d) :: copied_pairs rest
  | _ :: rest => copied_pairs rest

/-- Id and time of the first added event showing the given image. -/
def first_added : List Event → String → Option (Nat × ℚ)
  | [], _ => none
  | Event.added i im _ t :: rest, img =>
    if im == img then some (i, t) else first_added rest img
  | _ :: rest, img => first_added rest img

/-- Time of the first removed event for the given overlay id. -/
def removal_time : List Event → Nat → Option ℚ
  | [], _ => none
  | Event.removed j t :: rest, i => if j == i then some t else removal_time rest i
  | _ :: rest, i => removal_time rest i

/-- How long the first overlay showing the given image stayed on screen:
removal time minus display time, when both events exist. -/
def display_span (evs : List Event) (img : String) : Option ℚ :=
  match first_added evs img with
  | some (i, t) =>
    match removal_time evs i with
    | some t2 => some (t2 - t)
    | none => none
  | none => none

/-- Copy oracle that succeeds only into the folder destB; used to exhibit
what a failing copy call does to the rest of the distribution loop. -/
def copyOk_destB_only : String → String → Bool := fun _ dest => dest == "destB"

/-- Concrete configuration with the test-autopress flag set. -/
def cfg_demo : Config :=
  { countdown := 0, prep_delay := 1, debounce := 0, testmode := true,
    copy_images_to := ["backup"], copyOk := fun _ _ => true }

/-- Concrete configuration with the test-autopress flag clear. -/
def cfg_normal : Config :=
  { countdown := 0, prep_delay := 1, debounce := 0, testmode := false,
    copy_images_to := [], copyOk := fun _ _ => true }

/-- Filename generator for demonstration runs. -/
def demo_fname : Nat → String := fun _ => "photo.jpg"

/-- Loop state corresponding to the start of the polling loop. -/
def demo_state : SessState :=
  { overlay := 0, taken_photo := 3, nextId := 1, clock := 0 }

/-- Polling iteration with no button activity. -/
def idle_input : IterInput :=
  { photoEdge := false, photoLevel := 1, exitEdge := false, exitLevel := 1 }

/-- Polling iteration where only the exit button edge fires and its level
still reads active after the debounce sleep. -/
def exit_input : IterInput :=
  { photoEdge := false, photoLevel := 1, exitEdge := true, exitLevel := 0 }

/-- Polling iteration where both buttons fire and both read active. -/
def both_input : IterInput :=
  { photoEdge := true, photoLevel := 0, exitEdge := true, exitLevel := 0 }

/-- Polling iteration where only the photo button fires and reads active. -/
def press_input : IterInput :=
  { photoEdge := true, photoLevel := 0, exitEdge := false, exitLevel := 1 }

/-! Helper lemmas about the trace projections. -/

@[simp] lemma addedIds_append (a b : List Event) :
    addedIds (a ++ b) = addedIds a ++ addedIds b := by
  induction a with
  | nil => rfl
  | cons e rest ih => cases e <;> simp [addedIds, ih]

@[simp] lemma removedIds_append (a b : List Event) :
    removedIds (a ++ b) = removedIds a ++ removedIds b := by
  induction a with
  | nil => rfl
  | cons e rest ih => cases e <;> simp [removedIds, ih]

@[simp] lemma captured_files_append (a b : List Event) :
    captured_files (a ++ b) = captured_files a ++ captured_files b := by
  induction a with
  | nil => rfl
  | cons e rest ih => cases e <;> simp [captured_files, ih]

@[simp] lemma copied_pairs_append (a b : List Event) :
    copied_pairs (a ++ b) = copied_pairs a ++ copied_pairs b := by
  induction a with
  | nil => rfl
  | cons e rest ih => cases e <;> simp [copied_pairs, ih]

lemma mem_unremoved {evs : List Event} {i : Nat} :
    i ∈ unremoved evs ↔ i ∈ addedIds evs ∧ i ∉ removedIds evs := by
  simp [unremoved, List.mem_filter]

/-! Helper lemmas about overlay_image and remove_overlay. -/

lemma overlay_image_nextId (n : Nat) (img : String) (d : ℚ) (l : Nat) (c : ℚ) :
    (overlay_image n img d l c).nextId = n + 1 := by
  unfold overlay_image; split <;> rfl

lemma overlay_image_addedIds (n : Nat) (img : String) (d : ℚ) (l : Nat) (c : ℚ) :
    addedIds (overlay_image n img d l c).events = [n] := by
  unfold overlay_image; split <;> rfl

lemma overlay_image_captured (n : Nat) (img : String) (d : ℚ) (l : Nat) (c : ℚ) :
    captured_files (overlay_image n img d l c).events = [] := by
  unfold overlay_image; split <;> rfl

lemma overlay_image_copied (n : Nat) (img : String) (d : ℚ) (l : Nat) (c : ℚ) :
    copied_pairs (overlay_image n img d l c).events = [] := by
  unfold overlay_image; split <;> rfl

lemma overlay_image_events_pos {d : ℚ} (h : d > 0) (n : Nat) (img : String)
    (l : Nat) (c : ℚ) :
    (overlay_image n img d l c).events =
      [Event.added n img l c, Event.removed n (c + d)] := by
  unfold overlay_image; rw [if_pos h]

lemma overlay_image_events_zero {d : ℚ} (h : ¬ d > 0) (n : Nat) (img : String)
    (l : Nat) (c : ℚ) :
    (overlay_image n img d l c).events = [Event.added n img l c] := by
  unfold overlay_image; rw [if_neg h]

lemma overlay_image_removedIds_pos {d : ℚ} (h : d > 0) (n : Nat) (img : String)
    (l : Nat) (c : ℚ) :
    removedIds (overlay_image n img d l c).events = [n] := by
  rw [overlay_image_events_pos h]; rfl

lemma overlay_image_removedIds_zero {d : ℚ} (h : ¬ d > 0) (n : Nat) (img : String)
    (l : Nat) (c : ℚ) :
    removedIds (overlay_image n img d l c).events = [] := by
  rw [overlay_image_events_zero h]; rfl

lemma overlay_image_ret_pos {d : ℚ} (h : d > 0) (n : Nat) (img : String)
    (l : Nat) (c : ℚ) : (overlay_image n img d l c).ret = -1 := by
  unfold overlay_image; rw [if_pos h]

lemma overlay_image_ret_zero {d : ℚ} (h : ¬ d > 0) (n : Nat) (img : String)
    (l : Nat) (c : ℚ) : (overlay_image n img d l c).ret = Int.ofNat n := by
  unfold overlay_image; rw [if_neg h]

lemma overlay_image_clock_pos {d : ℚ} (h : d > 0) (n : Nat) (img : String)
    (l : Nat) (c : ℚ) : (overlay_image n img d l c).clock = c + d := by
  unfold overlay_image; rw [if_pos h]

lemma overlay_image_clock_zero {d : ℚ} (h : ¬ d > 0) (n : Nat) (img : String)
    (l : Nat) (c : ℚ) : (overlay_image n img d l c).clock = c := by
  unfold overlay_image; rw [if_neg h]

lemma remove_overlay_ofNat (k : Nat) (c : ℚ) :
    remove_overlay (Int.ofNat k) c = [Event.removed k c] := by
  unfold remove_overlay
  rw [if_pos (show (Int.ofNat k) ≠ -1 by rw [Int.ofNat_eq_natCast]; omega)]
  simp

lemma remove_overlay_cast_succ (k : Nat) (c : ℚ) :
    remove_overlay ((k : Int) + 1) c = [Event.removed (k + 1) c] := by
  unfold remove_overlay
  rw [if_pos (by omega : ((k : Int) + 1) ≠ -1)]
  have h : ((k : Int) + 1).toNat = k + 1 := by omega
  rw [h]

lemma remove_overlay_addedIds (o : Int) (c : ℚ) :
    addedIds (remove_overlay o c) = [] := by
  unfold remove_overlay; split <;> rfl

lemma remove_overlay_captured (o : Int) (c : ℚ) :
    captured_files (remove_overlay o c) = [] := by
  unfold remove_overlay; split <;> rfl

lemma remove_overlay_copied (o : Int) (c : ℚ) :
    copied_pairs (remove_overlay o c) = [] := by
  unfold remove_overlay; split <;> rfl

lemma sound_events_addedIds (s : Option String) (c : ℚ) :
    addedIds (sound_events s c) = [] := by
  cases s <;> rfl

lemma sound_events_removedIds (s : Option String) (c : ℚ) :
    removedIds (sound_events s c) = [] := by
  cases s <;> rfl

lemma sound_events_captured (s : Option String) (c : ℚ) :
    captured_files (sound_events s c) = [] := by
  cases s <;> rfl

lemma sound_events_copied (s : Option String) (c : ℚ) :
    copied_pairs (sound_events s c) = [] := by
  cases s <;> rfl

/-! Helper lemmas about the countdown screen loop. -/

lemma countdown_screens_nextId (n : Nat) : ∀ (nid : Nat) (c : ℚ),
    (countdown_screens nid c n).nextId = nid + n := by
  induction n with
  | zero => intro nid c; rfl
  | succ m ih =>
    intro nid c
    simp only [countdown_screens]
    rw [ih, overlay_image_nextId]
    omega

lemma countdown_screens_addedIds_mem (n : Nat) : ∀ (nid : Nat) (c : ℚ) (i : Nat),
    i ∈ addedIds (countdown_screens nid c n).events ↔ nid ≤ i ∧ i < nid + n := by
  induction n with
  | zero =>
    intro nid c i
    simp [countdown_screens, addedIds]
  | succ m ih =>
    intro nid c i
    simp only [countdown_screens, addedIds_append, List.mem_append,
      overlay_image_addedIds, overlay_image_nextId, ih, List.mem_singleton]
    omega

lemma countdown_screens_removedIds_mem (n : Nat) : ∀ (nid : Nat) (c : ℚ) (i : Nat),
    i ∈ removedIds (countdown_screens nid c n).events ↔ nid ≤ i ∧ i < nid + n := by
  induction n with
  | zero =>
    intro nid c i
    simp [countdown_screens, removedIds]
  | succ m ih =>
    intro nid c i
    simp only [countdown_screens, removedIds_append, List.mem_append,
      overlay_image_removedIds_pos (by norm_num : (1 : ℚ) > 0),
      overlay_image_nextId, ih, List.mem_singleton]
    omega

lemma countdown_screens_captured (n : Nat) : ∀ (nid : Nat) (c : ℚ),
    captured_files (countdown_screens nid c n).events = [] := by
  induction n with
  | zero => intro nid c; rfl
  | succ m ih =>
    intro nid c
    simp [countdown_screens, overlay_image_captured, ih]

lemma countdown_screens_copied (n : Nat) : ∀ (nid : Nat) (c : ℚ),
    copied_pairs (countdown_screens nid c n).events = [] := by
  induction n with
  | zero => intro nid c; rfl
  | succ m ih =>
    intro nid c
    simp [countdown_screens, overlay_image_copied, ih]

/-! Helper lemmas about the distribution block. -/

lemma copy_to_dest_addedIds (copyOk : String → String → Bool) (dest : String) :
    ∀ (srcs : List String) (c : ℚ),
    addedIds (copy_to_dest copyOk dest srcs c).events = [] := by
  intro srcs
  induction srcs with
  | nil => intro c; rfl
  | cons s rest ih =>
    intro c
    simp only [copy_to_dest]
    split
    · simp [addedIds, ih]
    · rfl

lemma copy_to_dest_removedIds (copyOk : String → String → Bool) (dest : String) :
    ∀ (srcs : List String) (c : ℚ),
    removedIds (copy_to_dest copyOk dest srcs c).events = [] := by
  intro srcs
  induction srcs with
  | nil => intro c; rfl
  | cons s rest ih =>
    intro c
    simp only [copy_to_dest]
    split
    · simp [removedIds, ih]
    · rfl

lemma copy_to_dest_captured (copyOk : String → String → Bool) (dest : String) :
    ∀ (srcs : List String) (c : ℚ),
    captured_files (copy_to_dest copyOk dest srcs c).events = [] := by
  intro srcs
  induction srcs with
  | nil => intro c; rfl
  | cons s rest ih =>
    intro c
    simp only [copy_to_dest]
    split
    · simp [captured_files, ih]
    · rfl

lemma distribute_addedIds (copyOk : String → String → Bool) :
    ∀ (dests srcs : List String) (c : ℚ),
    addedIds (distribute copyOk dests srcs c).events = [] := by
  intro dests
  induction dests with
  | nil => intro srcs c; rfl
  | cons d rest ih =>
    intro srcs c
    simp only [distribute]
    split
    · simp [copy_to_dest_addedIds, ih]
    · exact copy_to_dest_addedIds copyOk d srcs c

lemma distribute_removedIds (copyOk : String → String → Bool) :
    ∀ (dests srcs : List String) (c : ℚ),
    removedIds (distribute copyOk dests srcs c).events = [] := by
  intro dests
  induction dests with
  | nil => intro srcs c; rfl
  | cons d rest ih =>
    intro srcs c
    simp only [distribute]
    split
    · simp [copy_to_dest_removedIds, ih]
    · exact copy_to_dest_removedIds copyOk d srcs c

lemma distribute_captured (copyOk : String → String → Bool) :
    ∀ (dests srcs : List String) (c : ℚ),
    captured_files (distribute copyOk dests srcs c).events = [] := by
  intro dests
  induction dests with
  | nil => intro srcs c; rfl
  | cons d rest ih =>
    intro srcs c
    simp only [distribute]
    split
    · simp [copy_to_dest_captured, ih]
    · exact copy_to_dest_captured copyOk d srcs c

lemma attempted_until_failure_append (copyOk : String → String → Bool) :
    ∀ (l1 l2 : List (String × String)),
    attempted_until_failure copyOk (l1 ++ l2) =
      if (attempted_until_failure copyOk l1).2 then
        ((attempted_until_failure copyOk l1).1 ++ (attempted_until_failure copyOk l2).1,
         (attempted_until_failure copyOk l2).2)
      else attempted_until_failure copyOk l1 := by
  intro l1
  induction l1 with
  | nil => intro l2; simp [attempted_until_failure]
  | cons p rest ih =>
    intro l2
    simp only [List.cons_append, attempted_until_failure, List.append_eq]
    split
    · rw [ih]
      by_cases h2 : (attempted_until_failure copyOk rest).2
      · simp [h2]
      · simp [h2]
    · simp

lemma copy_to_dest_eq_until_failure (copyOk : String → String → Bool) (dest : String) :
    ∀ (srcs : List String) (c : ℚ),
    (copy_to_dest copyOk dest srcs c).attempted =
        (attempted_until_failure copyOk (srcs.map (fun src => (src, dest)))).1 ∧
    (copy_to_dest copyOk dest srcs c).ok =
        (attempted_until_failure copyOk (srcs.map (fun src => (src, dest)))).2 := by
  intro srcs
  induction srcs with
  | nil => intro c; exact ⟨rfl, rfl⟩
  | cons s rest ih =>
    intro c
    simp only [copy_to_dest, List.map_cons, attempted_until_failure]
    split
    · simp [(ih c).1, (ih c).2]
    · simp

lemma distribute_eq_until_failure (copyOk : String → String → Bool) :
    ∀ (dests srcs : List String) (c : ℚ),
    (distribute copyOk dests srcs c).attempted =
        (attempted_until_failure copyOk (all_pairs dests srcs)).1 ∧
    (distribute copyOk dests srcs c).ok =
        (attempted_until_failure copyOk (all_pairs dests srcs)).2 := by
  intro dests
  induction dests with
  | nil => intro srcs c; exact ⟨rfl, rfl⟩
  | cons d rest ih =>
    intro srcs c
    have hc := copy_to_dest_eq_until_failure copyOk d srcs c
    have ihr := ih srcs c
    simp only [all_pairs] at ihr
    simp only [distribute, all_pairs, List.flatMap_cons]
    rw [attempted_until_failure_append]
    by_cases hok : (copy_to_dest copyOk d srcs c).ok = true
    · rw [if_pos hok, if_pos (by rw [← hc.2]; exact hok)]
      exact ⟨by simp [hc.1, ihr.1], by simp [ihr.2]⟩
    · rw [if_neg hok, if_neg (by rw [← hc.2]; exact hok)]
      exact ⟨hc.1, hc.2⟩

lemma copy_to_dest_all_ok {copyOk : String → String → Bool}
    (h : ∀ s d, copyOk s d = true) (dest : String) :
    ∀ (srcs : List String) (c : ℚ),
    (copy_to_dest copyOk dest srcs c).ok = true ∧
    copied_pairs (copy_to_dest copyOk dest srcs c).events =
      srcs.map (fun src => (src, dest)) := by
  intro srcs
  induction srcs with
  | nil => intro c; exact ⟨rfl, rfl⟩
  | cons s rest ih =>
    intro c
    simp only [copy_to_dest, h s dest, if_true]
    exact ⟨(ih c).1, by simp [copied_pairs, (ih c).2]⟩

lemma distribute_all_ok {copyOk : String → String → Bool}
    (h : ∀ s d, copyOk s d = true) :
    ∀ (dests srcs : List String) (c : ℚ),
    (distribute copyOk dests srcs c).ok = true ∧
    copied_pairs (distribute copyOk dests srcs c).events = all_pairs dests srcs := by
  intro dests
  induction dests with
  | nil => intro srcs c; exact ⟨rfl, rfl⟩
  | cons d rest ih =>
    intro srcs c
    have hc := copy_to_dest_all_ok h d srcs c
    simp only [distribute, hc.1, if_true]
    refine ⟨(ih srcs c).1, ?_⟩
    simp [copied_pairs_append, hc.2, (ih srcs c).2, all_pairs]

lemma all_pairs_single (dests : List String) (f : String) :
    all_pairs dests [f] = dests.map (fun dest => (f, dest)) := by
  induction dests with
  | nil => rfl
  | cons d rest ih => simp [all_pairs, List.flatMap_cons] at ih ⊢; exact ih

/-! Helper lemmas about one session. -/

lemma distribute_copied_all_ok {copyOk : String → String → Bool}
    (h : ∀ s d, copyOk s d = true) (dests srcs : List String) (c : ℚ) :
    copied_pairs (distribute copyOk dests srcs c).events = all_pairs dests srcs :=
  (distribute_all_ok h dests srcs c).2

lemma distribute_ok_of_all_ok {copyOk : String → String → Bool}
    (h : ∀ s d, copyOk s d = true) (dests srcs : List String) (c : ℚ) :
    (distribute copyOk dests srcs c).ok = true :=
  (distribute_all_ok h dests srcs c).1

lemma run_session_taken (cfg : Config) (f : String) (st : SessState) :
    (run_session cfg f st).state.taken_photo = st.taken_photo := rfl

lemma run_session_nextId (cfg : Config) (f : String) (st : SessState) :
    (run_session cfg f st).state.nextId = st.nextId + cfg.countdown + 4 := by
  simp only [run_session, overlay_image_nextId, countdown_screens_nextId]
  omega

lemma run_session_overlay (cfg : Config) (f : String) (st : SessState) :
    (run_session cfg f st).state.overlay =
      Int.ofNat (st.nextId + cfg.countdown + 3) := by
  simp only [run_session, overlay_image_ret_zero (show ¬ (0:ℚ) > 0 by norm_num),
    overlay_image_nextId, countdown_screens_nextId, Int.ofNat_eq_natCast,
    Nat.cast_inj]
  omega

lemma run_session_added_mem (cfg : Config) (f : String) (st : SessState) (i : Nat) :
    i ∈ addedIds (run_session cfg f st).events ↔
      st.nextId ≤ i ∧ i < st.nextId + cfg.countdown + 4 := by
  simp only [run_session, addedIds_append, List.mem_append, overlay_image_addedIds,
    remove_overlay_addedIds, sound_events_addedIds, countdown_screens_addedIds_mem,
    distribute_addedIds, overlay_image_nextId, countdown_screens_nextId,
    addedIds, List.mem_singleton, List.not_mem_nil]
  simp only [or_false, false_or]
  omega

lemma run_session_removed_mem (cfg : Config) (f : String) (st : SessState)
    (hprep : cfg.prep_delay > 0) {k : Nat} (hov : st.overlay = Int.ofNat k)
    (i : Nat) :
    i ∈ removedIds (run_session cfg f st).events ↔
      i = k ∨ (st.nextId ≤ i ∧ i < st.nextId + cfg.countdown + 3) := by
  simp only [run_session, removedIds_append, List.mem_append,
    overlay_image_removedIds_pos hprep,
    overlay_image_removedIds_pos (show (2:ℚ) > 0 by norm_num),
    overlay_image_removedIds_zero (show ¬ (0:ℚ) > 0 by norm_num),
    hov, overlay_image_ret_zero (show ¬ (0:ℚ) > 0 by norm_num),
    remove_overlay_ofNat, sound_events_removedIds, countdown_screens_removedIds_mem,
    distribute_removedIds, overlay_image_nextId, countdown_screens_nextId,
    removedIds, List.mem_singleton, List.not_mem_nil]
  simp only [or_false, false_or]
  omega

lemma run_session_captured (cfg : Config) (f : String) (st : SessState) :
    captured_files (run_session cfg f st).events = [f] := by
  simp only [run_session, captured_files_append, overlay_image_captured,
    remove_overlay_captured, sound_events_captured, countdown_screens_captured,
    distribute_captured, captured_files, List.append_nil, List.nil_append]

lemma run_session_copied_all_ok (cfg : Config) (f : String) (st : SessState)
    (h : ∀ s d, cfg.copyOk s d = true) :
    copied_pairs (run_session cfg f st).events =
      cfg.copy_images_to.map (fun dest => (f, dest)) := by
  simp only [run_session, copied_pairs_append, overlay_image_copied,
    remove_overlay_copied, sound_events_copied, countdown_screens_copied,
    copied_pairs, distribute_copied_all_ok h, all_pairs_single,
    List.append_nil, List.nil_append]

lemma run_session_ok_of_all_ok (cfg : Config) (f : String) (st : SessState)
    (h : ∀ s d, cfg.copyOk s d = true) :
    (run_session cfg f st).ok = true := by
  simp only [run_session]
  exact distribute_ok_of_all_ok h _ _ _

lemma run_session_cue_mem (cfg : Config) (f : String) (st : SessState)
    {s : String} (h : countdown_sound st.taken_photo = some s) :
    ∃ t, Event.sound s t ∈ (run_session cfg f st).events := by
  refine ⟨(overlay_image st.nextId get_ready_image cfg.prep_delay 4 st.clock).clock, ?_⟩
  simp [run_session, h, sound_events, List.mem_append]

lemma run_session_done_mem (cfg : Config) (f : String) (st : SessState)
    {s : String} (h : done_sound st.taken_photo = some s) :
    ∃ t, Event.sound s t ∈ (run_session cfg f st).events := by
  refine ⟨(overlay_image
      ((countdown_screens
          ((overlay_image st.nextId get_ready_image cfg.prep_delay 4 st.clock).nextId)
          ((overlay_image st.nextId get_ready_image cfg.prep_delay 4 st.clock).clock)
          cfg.countdown).nextId)
      f 2 3
      ((countdown_screens
          ((overlay_image st.nextId get_ready_image cfg.prep_delay 4 st.clock).nextId)
          ((overlay_image st.nextId get_ready_image cfg.prep_delay 4 st.clock).clock)
          cfg.countdown).clock)).clock, ?_⟩
  simp [run_session, h, sound_events, List.mem_append]

/-! Helper lemmas about the polling loop. -/

lemma poll_button_fst (d : ℚ) (e : Bool) (l : Nat) (c : ℚ) :
    (poll_button d e l c).1 = (e && (l == 0)) := by
  cases e <;> simp [poll_button]

lemma poll_button_snd (d : ℚ) (e : Bool) (l : Nat) (c : ℚ) :
    (poll_button d e l c).2 = if e then c + d else c := by
  cases e <;> simp [poll_button]

lemma toNat_ofNat (n : Nat) : (Int.ofNat n).toNat = n := rfl

/-- One session extends the trace while keeping the invariant that exactly
one added overlay id lacks a matching removal: the id of the freshly shown
intro overlay. -/
lemma session_step_inv (cfg : Config) (hprep : cfg.prep_delay > 0) (f : String)
    (st : SessState) (E : List Event) (k : Nat)
    (hov : st.overlay = Int.ofNat k) (hk : k < st.nextId)
    (hEa : ∀ i ∈ addedIds E, i < st.nextId)
    (hEr : ∀ i ∈ removedIds E, i < st.nextId)
    (hchar : ∀ i, (i ∈ addedIds E ∧ i ∉ removedIds E) ↔ i = k) :
    (∀ i ∈ addedIds (E ++ (run_session cfg f st).events),
        i < (run_session cfg f st).state.nextId) ∧
    (∀ i ∈ removedIds (E ++ (run_session cfg f st).events),
        i < (run_session cfg f st).state.nextId) ∧
    (∀ i, (i ∈ addedIds (E ++ (run_session cfg f st).events) ∧
           i ∉ removedIds (E ++ (run_session cfg f st).events)) ↔
          i = st.nextId + cfg.countdown + 3) := by
  have hN := run_session_nextId cfg f st
  refine ⟨?_, ?_, ?_⟩
  · intro i hi
    rw [addedIds_append, List.mem_append] at hi
    rcases hi with hi | hi
    · have := hEa i hi; omega
    · rw [run_session_added_mem] at hi; omega
  · intro i hi
    rw [removedIds_append, List.mem_append] at hi
    rcases hi with hi | hi
    · have := hEr i hi; omega
    · rw [run_session_removed_mem cfg f st hprep hov] at hi; omega
  · intro i
    rw [addedIds_append, removedIds_append, List.mem_append, List.mem_append,
      run_session_added_mem, run_session_removed_mem cfg f st hprep hov]
    constructor
    · rintro ⟨ha, hr⟩
      rw [not_or, not_or] at hr
      obtain ⟨hr1, hr2, hr3⟩ := hr
      rcases ha with ha | ha
      · exact absurd ((hchar i).1 ⟨ha, hr1⟩) hr2
      · omega
    · intro hi
      refine ⟨Or.inr (by omega), ?_⟩
      rw [not_or, not_or]
      refine ⟨fun hc => ?_, fun hc => by omega, by omega⟩
      have := hEr i hc
      omega

/-- The polling loop preserves the single-unremoved-overlay invariant on
every control path, ending with the live intro overlay as the only added
but never removed id. -/
lemma main_loop_inv (cfg : Config) (fname : Nat → String)
    (hprep : cfg.prep_delay > 0) :
    ∀ (script : List IterInput) (st : SessState) (n : Nat) (E : List Event)
      (k : Nat), st.overlay = Int.ofNat k → k < st.nextId →
    (∀ i ∈ addedIds E, i < st.nextId) →
    (∀ i ∈ removedIds E, i < st.nextId) →
    (∀ i, (i ∈ addedIds E ∧ i ∉ removedIds E) ↔ i = k) →
    ∀ i, (i ∈ addedIds (E ++ (main_loop cfg fname script st n).events) ∧
          i ∉ removedIds (E ++ (main_loop cfg fname script st n).events)) ↔
         i = ((main_loop cfg fname script st n).final.overlay).toNat := by
  intro script
  induction script with
  | nil =>
    intro st n E k hov hk hEa hEr hchar i
    simp only [main_loop, List.append_nil, hov, Int.toNat_ofNat]
    exact hchar i
  | cons inp rest ih =>
    intro st n E k hov hk hEa hEr hchar i
    simp only [main_loop]
    set stc : SessState :=
      { st with clock := (poll_button cfg.debounce inp.exitEdge inp.exitLevel
          (poll_button cfg.debounce inp.photoEdge inp.photoLevel st.clock).2).2 }
      with hstc
    have hovc : stc.overlay = Int.ofNat k := hov
    split
    · simp only [List.append_nil, hov, hovc, toNat_ofNat]
      exact hchar i
    · split
      · -- a session runs
        have hstep := session_step_inv cfg hprep (fname n) stc E k hovc hk hEa hEr hchar
        split
        · split
          · -- test-mode break after the session
            simp only [run_session_overlay, toNat_ofNat]
            exact hstep.2.2 i
          · -- normal path: continue the loop after the session
            rw [← List.append_assoc]
            refine ih _ _ _ _ ?_ ?_ ?_ ?_ hstep.2.2 i
            · exact run_session_overlay cfg (fname n) stc
            · exact lt_of_lt_of_eq
                (by omega : stc.nextId + cfg.countdown + 3 <
                  stc.nextId + cfg.countdown + 4)
                (run_session_nextId cfg (fname n) stc).symm
            · exact hstep.1
            · exact hstep.2.1
        · -- uncaught copy failure ends the loop after the session
          simp only [run_session_overlay, toNat_ofNat]
          exact hstep.2.2 i
      · -- no confirmed press: idle tick
        exact ih _ n E k (by exact hov) (by exact hk) (by exact hEa)
          (by exact hEr) hchar i

/-- Outside test mode, when every copy succeeds, the loop increments the
taken_photo counter exactly once per session it runs. -/
lemma main_loop_taken_of_not_test (cfg : Config) (fname : Nat → String)
    (htm : cfg.testmode = false) (hco : ∀ s d, cfg.copyOk s d = true) :
    ∀ (script : List IterInput) (st : SessState) (n : Nat),
    (main_loop cfg fname script st n).final.taken_photo + n =
      st.taken_photo + (main_loop cfg fname script st n).sessions := by
  intro script
  induction script with
  | nil => intro st n; rfl
  | cons inp rest ih =>
    intro st n
    simp only [main_loop]
    set stc : SessState :=
      { st with clock := (poll_button cfg.debounce inp.exitEdge inp.exitLevel
          (poll_button cfg.debounce inp.photoEdge inp.photoLevel st.clock).2).2 }
      with hstc
    split
    · rfl
    · split
      · split
        · simp only [htm, Bool.false_eq_true, if_false]
          have hih := ih
            { overlay := (run_session cfg (fname n) stc).state.overlay,
              taken_photo := (run_session cfg (fname n) stc).state.taken_photo + 1,
              nextId := (run_session cfg (fname n) stc).state.nextId,
              clock := (run_session cfg (fname n) stc).state.clock } (n + 1)
          have htk : (run_session cfg (fname n) stc).state.taken_photo =
              st.taken_photo := run_session_taken cfg (fname n) stc
          dsimp only at hih ⊢
          omega
        · rename_i h
          exact absurd (run_session_ok_of_all_ok cfg (fname n) stc hco) h
      · exact ih _ n

/-- In test mode the taken_photo counter is never incremented: the loop
breaks out of the iteration before the increment statement. -/
lemma main_loop_taken_of_test (cfg : Config) (fname : Nat → String)
    (htm : cfg.testmode = true) :
    ∀ (script : List IterInput) (st : SessState) (n : Nat),
    (main_loop cfg fname script st n).final.taken_photo = st.taken_photo := by
  intro script
  induction script with
  | nil => intro st n; rfl
  | cons inp rest ih =>
    intro st n
    simp only [main_loop]
    set stc : SessState :=
      { st with clock := (poll_button cfg.debounce inp.exitEdge inp.exitLevel
          (poll_button cfg.debounce inp.photoEdge inp.photoLevel st.clock).2).2 }
      with hstc
    split
    · rfl
    · split
      · split
        · show (run_session cfg (fname n) stc).state.taken_photo = st.taken_photo
          rw [run_session_taken]
        · show (run_session cfg (fname n) stc).state.taken_photo = st.taken_photo
          rw [run_session_taken]
      · exact ih _ n

lemma countdown_sound_eq_table (c : Nat) :
    countdown_sound c = countdown_cue_table.get? (c % 10) := by
  have h : c % 10 = 0 ∨ c % 10 = 1 ∨ c % 10 = 2 ∨ c % 10 = 3 ∨ c % 10 = 4 ∨
      c % 10 = 5 ∨ c % 10 = 6 ∨ c % 10 = 7 ∨ c % 10 = 8 ∨ c % 10 = 9 := by omega
  rcases h with h|h|h|h|h|h|h|h|h|h <;>
    simp [countdown_sound, countdown_cue_table, h]

lemma done_sound_eq_table (c : Nat) :
    done_sound c = done_cue_table.get? (c % 7) := by
  have h : c % 7 = 0 ∨ c % 7 = 1 ∨ c % 7 = 2 ∨ c % 7 = 3 ∨ c % 7 = 4 ∨
      c % 7 = 5 ∨ c % 7 = 6 := by omega
  rcases h with h|h|h|h|h|h|h <;>
    simp [done_sound, done_cue_table, h]

/-- With the test flag set, a first iteration whose exit press is not
confirmed runs one session and breaks out of the loop right after it. -/
lemma main_loop_testmode_first (cfg : Config) (fname : Nat → String)
    (inp : IterInput) (rest : List IterInput) (st : SessState) (n : Nat)
    (htm : cfg.testmode = true)
    (hx : (inp.exitEdge && (inp.exitLevel == 0)) = false)
    (hco : ∀ s d, cfg.copyOk s d = true) :
    (main_loop cfg fname (inp :: rest) st n).reason = some ExitReason.testBreak ∧
    (main_loop cfg fname (inp :: rest) st n).sessions = n + 1 ∧
    (main_loop cfg fname (inp :: rest) st n).events =
      (run_session cfg (fname n)
        { st with clock := (poll_button cfg.debounce inp.exitEdge inp.exitLevel
            (poll_button cfg.debounce inp.photoEdge inp.photoLevel st.clock).2).2 }).events := by
  have hxb : (poll_button cfg.debounce inp.exitEdge inp.exitLevel
      (poll_button cfg.debounce inp.photoEdge inp.photoLevel st.clock).2).1 = false := by
    rw [poll_button_fst]; exact hx
  simp only [main_loop, hxb, Bool.false_eq_true, if_false, htm, Bool.or_true,
    if_true,
    run_session_ok_of_all_ok cfg (fname n) _ hco]
  exact ⟨trivial, trivial, trivial⟩

/-- A first iteration with a confirmed photo press and no confirmed exit
press runs one session whose events lead the remaining trace. -/
lemma main_loop_press_first (cfg : Config) (fname : Nat → String)
    (inp : IterInput) (rest : List IterInput) (st : SessState) (n : Nat)
    (hp : (inp.photoEdge && (inp.photoLevel == 0)) = true)
    (hx : (inp.exitEdge && (inp.exitLevel == 0)) = false) :
    ∃ tail, (main_loop cfg fname (inp :: rest) st n).events =
      (run_session cfg (fname n)
        { st with clock := (poll_button cfg.debounce inp.exitEdge inp.exitLevel
            (poll_button cfg.debounce inp.photoEdge inp.photoLevel st.clock).2).2 }).events
        ++ tail := by
  have hxb : (poll_button cfg.debounce inp.exitEdge inp.exitLevel
      (poll_button cfg.debounce inp.photoEdge inp.photoLevel st.clock).2).1 = false := by
    rw [poll_button_fst]; exact hx
  have hpb : (poll_button cfg.debounce inp.photoEdge inp.photoLevel st.clock).1 = true := by
    rw [poll_button_fst]; exact hp
  simp only [main_loop, hxb, Bool.false_eq_true, if_false, hpb, Bool.true_or,
    if_true]
  split
  · split
    · exact ⟨[], (List.append_nil _).symm⟩
    · exact ⟨_, rfl⟩
  · exact ⟨[], (List.append_nil _).symm⟩

/-! Claim theorems. -/

/-- C1 counterexample: with destinations destA then destB and a copy call
that fails into destA, the later pair (p0, destB) is never attempted, so
the attempted pairs differ from the full pair list; a copy failure does
abort the remaining copies. -/
theorem C1_counterexample :
    ¬ ((distribute copyOk_destB_only ["destA", "destB"] ["p0"] 0).attempted =
        all_pairs ["destA", "destB"] ["p0"]) ∧
    ("p0", "destB") ∈ all_pairs ["destA", "destB"] ["p0"] ∧
    ("p0", "destB") ∉
      (distribute copyOk_destB_only ["destA", "destB"] ["p0"] 0).attempted := by
  refine ⟨by decide, by decide, by decide⟩

/-- C1 amended: the distribution loop has no exception handler, so the
attempted (source, destination) pairs are exactly the pairs up to and
including the first failing one, in destination-major iteration order, and
the loop succeeds only when every pair succeeds. -/
theorem C1_distribution_aborts (copyOk : String → String → Bool)
    (dests srcs : List String) (clock : ℚ) :
    (distribute copyOk dests srcs clock).attempted =
      (attempted_until_failure copyOk (all_pairs dests srcs)).1 ∧
    (distribute copyOk dests srcs clock).ok =
      (attempted_until_failure copyOk (all_pairs dests srcs)).2 :=
  distribute_eq_until_failure copyOk dests srcs clock

/-- C4: whenever the exit press is confirmed in an iteration, the loop
returns with the exit reason, no session is started, and no further events
are emitted, regardless of the photo button or the test flag. -/
theorem C4_exit_priority (cfg : Config) (fname : Nat → String)
    (inp : IterInput) (rest : List IterInput) (st : SessState) (n : Nat)
    (hx : (inp.exitEdge && (inp.exitLevel == 0)) = true) :
    (main_loop cfg fname (inp :: rest) st n).reason = some ExitReason.exitButton ∧
    (main_loop cfg fname (inp :: rest) st n).sessions = n ∧
    (main_loop cfg fname (inp :: rest) st n).events = [] := by
  have hxb : (poll_button cfg.debounce inp.exitEdge inp.exitLevel
      (poll_button cfg.debounce inp.photoEdge inp.photoLevel st.clock).2).1 = true := by
    rw [poll_button_fst]; exact hx
  simp only [main_loop, hxb, if_true]
  exact ⟨trivial, trivial, trivial⟩

/-- C4 witness: with both buttons confirmed in the same iteration and the
test flag even set, the loop still exits with the exit reason and zero
sessions. -/
theorem C4_exit_priority_witness :
    (main_loop cfg_demo demo_fname [both_input] demo_state 0).reason =
      some ExitReason.exitButton ∧
    (main_loop cfg_demo demo_fname [both_input] demo_state 0).sessions = 0 ∧
    (main_loop cfg_demo demo_fname [both_input] demo_state 0).events = [] :=
  C4_exit_priority cfg_demo demo_fname both_input [] demo_state 0 (by decide)

/-- C5: a press is confirmed exactly when an edge was latched and the
post-debounce re-read is active; the debounce sleep advances the clock by
the configured interval only when an edge was latched; and an iteration in
which both re-reads are inactive starts no session outside test mode: the
loop just continues with the idle tick. -/
theorem C5_debounce (cfg : Config) (fname : Nat → String) (d : ℚ)
    (edge : Bool) (level : Nat) (clock : ℚ) (inp : IterInput)
    (rest : List IterInput) (st : SessState) (n : Nat) :
    (poll_button d edge level clock).1 = (edge && (level == 0)) ∧
    (poll_button d edge level clock).2 = (if edge then clock + d else clock) ∧
    (inp.photoLevel ≠ 0 → inp.exitLevel ≠ 0 → cfg.testmode = false →
      main_loop cfg fname (inp :: rest) st n =
        main_loop cfg fname rest
          { st with clock := (poll_button cfg.debounce inp.exitEdge inp.exitLevel
              (poll_button cfg.debounce inp.photoEdge inp.photoLevel st.clock).2).2
                + 1/10 } n) := by
  refine ⟨poll_button_fst d edge level clock, poll_button_snd d edge level clock, ?_⟩
  intro hp hx htm
  have hp0 : (inp.photoLevel == 0) = false := beq_eq_false_iff_ne.mpr hp
  have hx0 : (inp.exitLevel == 0) = false := beq_eq_false_iff_ne.mpr hx
  have hpb : (poll_button cfg.debounce inp.photoEdge inp.photoLevel st.clock).1 = false := by
    rw [poll_button_fst, hp0, Bool.and_false]
  have hxb : (poll_button cfg.debounce inp.exitEdge inp.exitLevel
      (poll_button cfg.debounce inp.photoEdge inp.photoLevel st.clock).2).1 = false := by
    rw [poll_button_fst, hx0, Bool.and_false]
  simp only [main_loop, hpb, hxb, htm, Bool.or_false, Bool.false_eq_true, if_false]

/-- C5 witness: the confirmation equation at a concrete inactive re-read,
and a concrete both-unconfirmed iteration that merely recurses. -/
theorem C5_debounce_witness :
    (poll_button 1 true 5 0).1 = (true && (5 == 0)) ∧
    main_loop cfg_normal demo_fname [idle_input] demo_state 0 =
      main_loop cfg_normal demo_fname []
        { demo_state with clock := (poll_button cfg_normal.debounce idle_input.exitEdge
            idle_input.exitLevel (poll_button cfg_normal.debounce idle_input.photoEdge
              idle_input.photoLevel demo_state.clock).2).2 + 1/10 } 0 :=
  ⟨(C5_debounce cfg_normal demo_fname 1 true 5 0 idle_input [] demo_state 0).1,
   (C5_debounce cfg_normal demo_fname 1 true 5 0 idle_input [] demo_state 0).2.2
     (by decide) (by decide) rfl⟩

/-- C6: a positive duration makes the overlay call block for the duration,
remove the overlay it created and return the none handle -1; duration zero
leaves the overlay displayed, does not advance the clock and returns the
live non-none handle; and removing the none handle emits nothing. -/
theorem C6_overlay_contract (nextId : Nat) (image : String) (duration : ℚ)
    (layer : Nat) (clock : ℚ) :
    (duration > 0 →
      (overlay_image nextId image duration layer clock).ret = -1 ∧
      (overlay_image nextId image duration layer clock).clock = clock + duration ∧
      (overlay_image nextId image duration layer clock).events =
        [Event.added nextId image layer clock,
         Event.removed nextId (clock + duration)]) ∧
    (duration = 0 →
      (overlay_image nextId image duration layer clock).ret = Int.ofNat nextId ∧
      (overlay_image nextId image duration layer clock).ret ≠ -1 ∧
      (overlay_image nextId image duration layer clock).clock = clock ∧
      (overlay_image nextId image duration layer clock).events =
        [Event.added nextId image layer clock]) ∧
    remove_overlay (-1) clock = [] := by
  refine ⟨fun h => ⟨overlay_image_ret_pos h nextId image layer clock,
      overlay_image_clock_pos h nextId image layer clock,
      overlay_image_events_pos h nextId image layer clock⟩, fun h => ?_, ?_⟩
  · have h0 : ¬ duration > 0 := by rw [h]; norm_num
    refine ⟨overlay_image_ret_zero h0 nextId image layer clock, ?_,
      overlay_image_clock_zero h0 nextId image layer clock,
      overlay_image_events_zero h0 nextId image layer clock⟩
    rw [overlay_image_ret_zero h0 nextId image layer clock, Int.ofNat_eq_natCast]
    omega
  · unfold remove_overlay
    simp

/-- C6 witness: the contract evaluated at duration two and duration zero. -/
theorem C6_overlay_contract_witness :
    (overlay_image 7 "img" 2 3 0).ret = -1 ∧
    (overlay_image 7 "img" 0 3 0).ret = Int.ofNat 7 ∧
    remove_overlay (-1) 0 = [] :=
  ⟨((C6_overlay_contract 7 "img" 2 3 0).1 (by norm_num)).1,
   ((C6_overlay_contract 7 "img" 0 3 0).2.1 rfl).1,
   (C6_overlay_contract 7 "img" 0 3 0).2.2⟩

/-- C7: the padded canvas is the least size whose width is a multiple of
32 and height a multiple of 16 covering the image, the image is pasted at
the canvas origin, and the renderer is handed the original unpadded size. -/
theorem C7_padding (w h : Nat) :
    (overlay_render w h).canvas_w % 32 = 0 ∧
    (overlay_render w h).canvas_h % 16 = 0 ∧
    w ≤ (overlay_render w h).canvas_w ∧
    h ≤ (overlay_render w h).canvas_h ∧
    (∀ W, W % 32 = 0 → w ≤ W → (overlay_render w h).canvas_w ≤ W) ∧
    (∀ H, H % 16 = 0 → h ≤ H → (overlay_render w h).canvas_h ≤ H) ∧
    (overlay_render w h).paste_x = 0 ∧ (overlay_render w h).paste_y = 0 ∧
    (overlay_render w h).size_w = w ∧ (overlay_render w h).size_h = h := by
  simp only [overlay_render]
  refine ⟨by omega, by omega, by omega, by omega, ?_, ?_, trivial, trivial,
    trivial, trivial⟩
  · intro W hW hwW; omega
  · intro H hH hhH; omega

/-- C7 witness: the padding theorem instantiated at a 100 by 50 image,
with minimality checked against the covering sizes 128 and 64. -/
theorem C7_padding_witness :
    (overlay_render 100 50).canvas_w ≤ 128 ∧
    (overlay_render 100 50).canvas_h ≤ 64 ∧
    100 ≤ (overlay_render 100 50).canvas_w ∧
    (overlay_render 100 50).size_w = 100 :=
  ⟨(C7_padding 100 50).2.2.2.2.1 128 (by decide) (by decide),
   (C7_padding 100 50).2.2.2.2.2.1 64 (by decide) (by decide),
   (C7_padding 100 50).2.2.1,
   (C7_padding 100 50).2.2.2.2.2.2.2.2.1⟩

/-- C8: cue selection is a pure function of the counter: the countdown cue
is the entry of the four-clip table at the counter mod 10, absent exactly
when the remainder is 4 to 9; the done cue is the entry of the seven-clip
table at the counter mod 7 and always present; equal remainders select
equal clips on every call. -/
theorem C8_cue_selection (c c2 : Nat) :
    countdown_sound c = countdown_cue_table.get? (c % 10) ∧
    done_sound c = done_cue_table.get? (c % 7) ∧
    (done_sound c).isSome = true ∧
    (c % 10 < 4 → (countdown_sound c).isSome = true) ∧
    (4 ≤ c % 10 → countdown_sound c = none) ∧
    (c % 10 = c2 % 10 → countdown_sound c = countdown_sound c2) ∧
    (c % 7 = c2 % 7 → done_sound c = done_sound c2) := by
  refine ⟨countdown_sound_eq_table c, done_sound_eq_table c, ?_, ?_, ?_, ?_, ?_⟩
  · rw [done_sound_eq_table]
    have h : c % 7 = 0 ∨ c % 7 = 1 ∨ c % 7 = 2 ∨ c % 7 = 3 ∨ c % 7 = 4 ∨
        c % 7 = 5 ∨ c % 7 = 6 := by omega
    rcases h with h|h|h|h|h|h|h <;> simp [h, done_cue_table]
  · intro h4
    rw [countdown_sound_eq_table]
    have h : c % 10 = 0 ∨ c % 10 = 1 ∨ c % 10 = 2 ∨ c % 10 = 3 := by omega
    rcases h with h|h|h|h <;> simp [h, countdown_cue_table]
  · intro h4
    rw [countdown_sound_eq_table]
    have h : c % 10 = 4 ∨ c % 10 = 5 ∨ c % 10 = 6 ∨ c % 10 = 7 ∨ c % 10 = 8 ∨
        c % 10 = 9 := by omega
    rcases h with h|h|h|h|h|h <;> simp [h, countdown_cue_table]
  · intro he
    rw [countdown_sound_eq_table, countdown_sound_eq_table, he]
  · intro he
    rw [done_sound_eq_table, done_sound_eq_table, he]

/-- C8 witness: the selection facts evaluated at the counters 13, 23, 14
and 20. -/
theorem C8_cue_selection_witness :
    (countdown_sound 13).isSome = true ∧
    countdown_sound 14 = none ∧
    countdown_sound 13 = countdown_sound 23 ∧
    done_sound 13 = done_sound 20 :=
  ⟨(C8_cue_selection 13 23).2.2.2.1 (by decide),
   (C8_cue_selection 14 14).2.2.2.2.1 (by decide),
   (C8_cue_selection 13 23).2.2.2.2.2.1 (by decide),
   (C8_cue_selection 13 20).2.2.2.2.2.2 (by decide)⟩

/-- C3 counterexample: a run ending through the exit-button return leaves
the intro overlay handle, obtained with duration 0, without any removal:
the trace has an added id with no matching removed event, so not every
duration-0 handle is passed to a removal operation on that control path. -/
theorem C3_counterexample :
    (run cfg_normal demo_fname [exit_input]).reason = some ExitReason.exitButton ∧
    unremoved (run cfg_normal demo_fname [exit_input]).events ≠ [] := by
  refine ⟨by decide, by decide⟩

/-- C3 amended: as long as the prep screen has a positive duration, every
duration-0 overlay handle except one is removed on every control path: the
finished overlay is always removed and each superseded intro overlay is
removed by the following session, but the intro overlay that is live when
the loop ends is never removed; it is exactly the single added id without
a matching removal in the whole trace. -/
theorem C3_overlay_removal (cfg : Config) (fname : Nat → String)
    (script : List IterInput) (hprep : cfg.prep_delay > 0) (i : Nat) :
    i ∈ unremoved (run cfg fname script).events ↔
      i = ((run cfg fname script).final.overlay).toNat := by
  rw [mem_unremoved]
  have h := main_loop_inv cfg fname hprep script init_state 0
    (overlay_image 0 intro_image 0 3 0).events 0
    (by show (overlay_image 0 intro_image 0 3 0).ret = Int.ofNat 0
        rw [overlay_image_ret_zero (by norm_num : ¬ (0:ℚ) > 0)])
    (by show 0 < (overlay_image 0 intro_image 0 3 0).nextId
        rw [overlay_image_nextId]
        omega)
    (by intro j hj
        rw [overlay_image_addedIds] at hj
        show j < (overlay_image 0 intro_image 0 3 0).nextId
        rw [overlay_image_nextId]
        simp at hj
        omega)
    (by intro j hj
        rw [overlay_image_removedIds_zero (by norm_num : ¬ (0:ℚ) > 0)] at hj
        simp at hj)
    (by intro j
        rw [overlay_image_addedIds,
          overlay_image_removedIds_zero (by norm_num : ¬ (0:ℚ) > 0)]
        simp)
    i
  exact h

/-- C3 witness: the amended statement evaluated on an empty-script run of
the test configuration at the intro overlay id. -/
theorem C3_overlay_removal_witness :
    0 ∈ unremoved (run cfg_demo demo_fname []).events ↔
      0 = ((run cfg_demo demo_fname []).final.overlay).toNat :=
  C3_overlay_removal cfg_demo demo_fname [] (by norm_num [cfg_demo]) 0

/-- C9: with the test-autopress flag set, when the first iteration has no
confirmed exit press and every copy succeeds, the loop ends with the
test-mode break after exactly one session; that session captures exactly
one file, and it is copied to every configured copy destination. -/
theorem C9_testmode_single_session (cfg : Config) (fname : Nat → String)
    (inp : IterInput) (rest : List IterInput)
    (htm : cfg.testmode = true)
    (hx : (inp.exitEdge && (inp.exitLevel == 0)) = false)
    (hco : ∀ s d, cfg.copyOk s d = true) :
    (run cfg fname (inp :: rest)).reason = some ExitReason.testBreak ∧
    (run cfg fname (inp :: rest)).sessions = 1 ∧
    captured_files (run cfg fname (inp :: rest)).events = [fname 0] ∧
    copied_pairs (run cfg fname (inp :: rest)).events =
      cfg.copy_images_to.map (fun dest => (fname 0, dest)) := by
  have h := main_loop_testmode_first cfg fname inp rest init_state 0 htm hx hco
  have hev : (run cfg fname (inp :: rest)).events =
      (overlay_image 0 intro_image 0 3 0).events ++
      (main_loop cfg fname (inp :: rest) init_state 0).events := rfl
  refine ⟨h.1, h.2.1, ?_, ?_⟩
  · rw [hev, h.2.2, captured_files_append, overlay_image_captured,
      run_session_captured]
    rfl
  · rw [hev, h.2.2, copied_pairs_append, overlay_image_copied,
      run_session_copied_all_ok _ _ _ hco]
    rfl

/-- C9 witness: the single-session theorem evaluated on the concrete test
configuration with one idle polling input. -/
theorem C9_testmode_single_session_witness :
    (run cfg_demo demo_fname [idle_input]).reason = some ExitReason.testBreak ∧
    (run cfg_demo demo_fname [idle_input]).sessions = 1 ∧
    captured_files (run cfg_demo demo_fname [idle_input]).events = [demo_fname 0] ∧
    copied_pairs (run cfg_demo demo_fname [idle_input]).events =
      cfg_demo.copy_images_to.map (fun dest => (demo_fname 0, dest)) :=
  C9_testmode_single_session cfg_demo demo_fname idle_input [] rfl (by decide)
    (fun s d => rfl)

/-- C10: the taken_photo counter starts at 3 and, outside test mode with
all copies succeeding, ends at 3 plus the number of sessions run; in test
mode it is never incremented; and the first session of a run selects the
countdown clip of index 3 and the done clip of index 3. -/
theorem C10_counter (cfg : Config) (fname : Nat → String) :
    (∀ script : List IterInput, cfg.testmode = false →
      (∀ s d, cfg.copyOk s d = true) →
      (run cfg fname script).final.taken_photo = 3 + (run cfg fname script).sessions) ∧
    (∀ script : List IterInput, cfg.testmode = true →
      (run cfg fname script).final.taken_photo = 3) ∧
    (∀ (inp : IterInput) (rest : List IterInput),
      (inp.photoEdge && (inp.photoLevel == 0)) = true →
      (inp.exitEdge && (inp.exitLevel == 0)) = false →
      (∃ t, Event.sound SOUND_COUNTDOWN_3 t ∈ (run cfg fname (inp :: rest)).events) ∧
      (∃ t, Event.sound SOUND_DONE_3 t ∈ (run cfg fname (inp :: rest)).events)) := by
  refine ⟨?_, ?_, ?_⟩
  · intro script htm hco
    have h : (run cfg fname script).final.taken_photo + 0 =
        3 + (run cfg fname script).sessions :=
      main_loop_taken_of_not_test cfg fname htm hco script init_state 0
    omega
  · intro script htm
    exact main_loop_taken_of_test cfg fname htm script init_state 0
  · intro inp rest hp hx
    obtain ⟨tail, hev⟩ := main_loop_press_first cfg fname inp rest init_state 0 hp hx
    have hrun : (run cfg fname (inp :: rest)).events =
        (overlay_image 0 intro_image 0 3 0).events ++
        (main_loop cfg fname (inp :: rest) init_state 0).events := rfl
    constructor
    · obtain ⟨t, ht⟩ := run_session_cue_mem cfg (fname 0)
        { init_state with clock := (poll_button cfg.debounce inp.exitEdge
            inp.exitLevel (poll_button cfg.debounce inp.photoEdge inp.photoLevel
              init_state.clock).2).2 }
        (show countdown_sound (3 : Nat) = some SOUND_COUNTDOWN_3 from rfl)
      refine ⟨t, ?_⟩
      rw [hrun, hev]
      exact List.mem_append_right _ (List.mem_append_left _ ht)
    · obtain ⟨t, ht⟩ := run_session_done_mem cfg (fname 0)
        { init_state with clock := (poll_button cfg.debounce inp.exitEdge
            inp.exitLevel (poll_button cfg.debounce inp.photoEdge inp.photoLevel
              init_state.clock).2).2 }
        (show done_sound (3 : Nat) = some SOUND_DONE_3 from rfl)
      refine ⟨t, ?_⟩
      rw [hrun, hev]
      exact List.mem_append_right _ (List.mem_append_left _ ht)

/-- C10 witness: the counter facts evaluated on concrete runs: the empty
non-test run, the empty test run, and a run with one confirmed photo
press. -/
theorem C10_counter_witness :
    (run cfg_normal demo_fname []).final.taken_photo =
      3 + (run cfg_normal demo_fname []).sessions ∧
    (run cfg_demo demo_fname []).final.taken_photo = 3 ∧
    (∃ t, Event.sound SOUND_COUNTDOWN_3 t ∈
      (run cfg_normal demo_fname [press_input]).events) :=
  ⟨(C10_counter cfg_normal demo_fname).1 [] rfl (fun s d => rfl),
   (C10_counter cfg_demo demo_fname).2.1 [] rfl,
   ((C10_counter cfg_normal demo_fname).2.2 press_input [] (by decide)
     (by decide)).1⟩

/-- C2 counterexample: in a concrete full session, the finished overlay is
added and then removed two seconds later, not three: the sleep between
showing it and removing it is two seconds in the loop body of main. -/
theorem C2_counterexample :
    display_span (run cfg_demo demo_fname [idle_input]).events finished_image =
      some 2 ∧
    display_span (run cfg_demo demo_fname [idle_input]).events finished_image ≠
      some 3 := by
  have hs1 : "./assets/Bienvenue.png" ≠ "./assets/all_done.png" := by decide
  have hs2 : "./assets/souriez.png" ≠ "./assets/all_done.png" := by decide
  have hs3 : "photo.jpg" ≠ "./assets/all_done.png" := by decide
  constructor <;>
    norm_num [run, main_loop, run_session, init_state, overlay_image,
      remove_overlay, countdown_screens, sound_events, countdown_sound,
      done_sound, distribute, copy_to_dest, poll_button, display_span,
      first_added, removal_time, cfg_demo, demo_fname, idle_input,
      intro_image, finished_image, get_ready_image, hs1, hs2, hs3,
      show Int.toNat 3 = 3 from rfl]

/-- C2 amended: in every session the captured photo is played back for two
seconds; afterwards the finished overlay appears on layer 4 while the
intro overlay is re-shown at the same instant on the lower layer 3, and
the finished overlay is removed two seconds later, not three. -/
theorem C2_finished_overlay (cfg : Config) (filename : String) (st : SessState) :
    ∃ (idp idf idn : Nat) (tp : ℚ),
      Event.added idp filename 3 tp ∈ (run_session cfg filename st).events ∧
      Event.removed idp (tp + 2) ∈ (run_session cfg filename st).events ∧
      Event.added idf finished_image 4 (tp + 2) ∈ (run_session cfg filename st).events ∧
      Event.added idn intro_image 3 (tp + 2) ∈ (run_session cfg filename st).events ∧
      Event.removed idf (tp + 2 + 2) ∈ (run_session cfg filename st).events := by
  refine ⟨(countdown_screens (overlay_image st.nextId get_ready_image
        cfg.prep_delay 4 st.clock).nextId (overlay_image st.nextId
        get_ready_image cfg.prep_delay 4 st.clock).clock cfg.countdown).nextId,
    (countdown_screens (overlay_image st.nextId get_ready_image
        cfg.prep_delay 4 st.clock).nextId (overlay_image st.nextId
        get_ready_image cfg.prep_delay 4 st.clock).clock cfg.countdown).nextId + 1,
    (countdown_screens (overlay_image st.nextId get_ready_image
        cfg.prep_delay 4 st.clock).nextId (overlay_image st.nextId
        get_ready_image cfg.prep_delay 4 st.clock).clock cfg.countdown).nextId + 1 + 1,
    (countdown_screens (overlay_image st.nextId get_ready_image
        cfg.prep_delay 4 st.clock).nextId (overlay_image st.nextId
        get_ready_image cfg.prep_delay 4 st.clock).clock cfg.countdown).clock,
    ?_, ?_, ?_, ?_, ?_⟩ <;>
    simp [run_session, List.mem_append,
      overlay_image_events_pos (show (2:ℚ) > 0 by norm_num),
      overlay_image_events_zero (show ¬ (0:ℚ) > 0 by norm_num),
      overlay_image_clock_pos (show (2:ℚ) > 0 by norm_num),
      overlay_image_clock_zero (show ¬ (0:ℚ) > 0 by norm_num),
      overlay_image_ret_zero (show ¬ (0:ℚ) > 0 by norm_num),
      overlay_image_nextId, remove_overlay_ofNat, remove_overlay_cast_succ]

end PhotoBooth
